import Mathlib

/-!
# Verification of the trade_database_manager SQL access layer

A shallow embedding, in Lean 4, of the parts of the repository
`trade_database_manager` that the specification's claims are about:

* `core/sql/sqlmanager.py` — the generic SQL table manager (`insert` with its
  conflict policy, `read_data` with scalar/membership filters,
  `rename_column` with its index lifecycle);
* `core/sql/utils.py` — `infer_sql_type`, the column type mapper;
* `manager/metadata_sql.py` — the metadata store built on the table manager
  (`update_instrument_metadata`, `read_metadata`,
  `read_metadata_for_insttype`);
* `manager/metadata_sql_cb.py` — `read_latest_convert_price`, the grouped
  top-1 convenience query.

Python dictionaries are modelled as association lists, pandas data frames as
lists of rows (each row an association list from column name to value), and
database tables as a list of rows together with the schema facts the claims
need (column list, presence of a unique key index).  Fallible Python code is
modelled with `Except PyErr`: each `PyErr` constructor names the concrete
Python exception class the embedded code raises.
-/

/-- A SQL / pandas cell value.  Dates and timestamps are represented as
integers (e.g. 20240101); this loses no structure relevant to the claims,
which only compare and order such values. -/
inductive Val
  | str (s : String)
  | int (n : Int)
  | null
  deriving DecidableEq

/-- The Python exceptions surfaced by the embedded code. -/
inductive PyErr
  /-- e.g. calling `pd.read_sql_query()` with no arguments. -/
  | typeError
  /-- e.g. reading `.columns` from a `dict` or a `list`. -/
  | attributeError
  /-- an explicit `raise ValueError(...)`. -/
  | valueError
  /-- evaluating an unbound name (`numpy` in `utils.py`). -/
  | nameError
  /-- a failed `assert`. -/
  | assertionError
  /-- a unique-constraint violation reported by the database engine. -/
  | integrityError
  /-- e.g. `table.columns[field]` for a column the table does not have. -/
  | keyError
  deriving DecidableEq

/-- A row, as an association list from column name to value. -/
abbrev Row := List (String × Val)

/-! ## `SqlManager.insert` and its conflict policy (sqlmanager.py 14-108)

A table whose rows are keyed by the data frame's index (the table's primary
key, possibly composite) is modelled as a list of `(key, non-key columns)`
pairs, plus the fact of whether `insert` has put a unique index on the key
columns (it always does when it creates the table, lines 102-103).
-/

/-- A table as `SqlManager.insert` sees it: stored rows keyed by the primary
key `K` with the remaining columns collected in `V`, plus whether a unique
index on the key columns exists (`insert` creates one with the table). -/
structure SqlTable (K V : Type) where
  rows : List (K × V)
  uniqueKeyIndex : Bool
  deriving DecidableEq

/-- Whether the incoming frame carries two rows with the same key.  A single
multi-row INSERT (with or without an ON CONFLICT clause) raises when two of
its rows hit the same unique-index entry. -/
def hasDupKeys {K V : Type} [DecidableEq K] (df : List (K × V)) : Bool :=
  !(decide (df.map Prod.fst).Nodup)

/-- One row of `_insert_on_conflict_update` (sqlmanager.py 14-19): the row is
inserted with "on conflict with the key index, update every column to the
excluded (incoming) values" semantics — `set_` ranges over all of `keys`, so
a conflicting stored row is overwritten whole, not merged field by field. -/
def upsertRow {K V : Type} [DecidableEq K] (t : List (K × V)) (r : K × V) :
    List (K × V) :=
  if (t.map Prod.fst).contains r.1 then
    t.map (fun x => if x.1 = r.1 then r else x)
  else
    t ++ [r]

/-- All rows of one `_insert_on_conflict_update` statement, applied in frame
order. -/
def upsertRows {K V : Type} [DecidableEq K] (t : List (K × V))
    (df : List (K × V)) : List (K × V) :=
  df.foldl upsertRow t

/-- The full `_insert_on_conflict_update` statement: a duplicate key inside
one statement makes the engine raise; otherwise each row is upserted. -/
def insertOnConflictUpdate {K V : Type} [DecidableEq K] (t df : List (K × V)) :
    Except PyErr (List (K × V)) :=
  if hasDupKeys df then .error .integrityError else .ok (upsertRows t df)

/-- A plain multi-row INSERT (pandas `to_sql` with `method=None`): when the
table carries a unique index on the key columns, any incoming key that is
already stored — or duplicated inside the frame — violates the index and the
engine raises; without the index the rows are appended as duplicates. -/
def plainInsertRows {K V : Type} [DecidableEq K] (uniqueIdx : Bool)
    (t df : List (K × V)) : Except PyErr (List (K × V)) :=
  if uniqueIdx && (df.any (fun r => (t.map Prod.fst).contains r.1) || hasDupKeys df) then
    .error .integrityError
  else
    .ok (t ++ df)

/-- `SqlManager.insert` (sqlmanager.py 66-108).  `table` is `none` when the
table does not yet exist.  The `method` handed to `to_sql` (line 93) is
`_insert_on_conflict_update` exactly when `upsert` is true and the table
pre-existed, and `None` — a plain INSERT — otherwise; in particular
`_insert_on_conflict_nothing` (lines 22-26) is never selected.  When the
table is new, `to_sql` creates it, appends the rows, and `insert` then adds a
unique index on the key columns (lines 102-103), which raises if the frame
itself carried duplicate keys. -/
def SqlManager.insert {K V : Type} [DecidableEq K]
    (table : Option (SqlTable K V)) (df : List (K × V)) (upsert : Bool) :
    Except PyErr (SqlTable K V) :=
  match table with
  | none =>
      if hasDupKeys df then .error .integrityError
      else .ok ⟨df, true⟩
  | some t =>
      if upsert then
        (insertOnConflictUpdate t.rows df).map (fun r => ⟨r, t.uniqueKeyIndex⟩)
      else
        (plainInsertRows t.uniqueKeyIndex t.rows df).map (fun r => ⟨r, t.uniqueKeyIndex⟩)

/-! ## `SqlManager.read_data` (sqlmanager.py 216-254) -/

/-- A filter value as dispatched on line 242-247: a non-string, non-bytes
`Container` gives IN-semantics (`.multi`); everything else — scalars, and
strings or bytes even though they are iterable — gives equality
(`.single`). -/
inductive FilterVal
  | single (v : Val)
  | multi (vs : List Val)
  deriving DecidableEq

/-- A Python dict of filters, as an association list. -/
abbrev Dict := List (String × FilterVal)

/-- A database table as the readers see it: its column names and its stored
rows. -/
structure DbTable where
  cols : List String
  rows : List Row
  deriving DecidableEq

/-- One filter condition (sqlmanager.py 242-247): equality against a scalar,
membership for a multi-valued container. -/
def filterCond (row : Row) (f : String) (fv : FilterVal) : Bool :=
  match fv with
  | .single v => row.lookup f == some v
  | .multi vs =>
      match row.lookup f with
      | some v => vs.contains v
      | none => false

/-- All filter conditions combined with AND (the `sql.and_` on line 249). -/
def rowMatches (row : Row) (ff : Dict) : Bool :=
  ff.all (fun p => filterCond row p.1 p.2)

/-- Projection of a row onto the requested columns, in the requested
order. -/
def projectRow (qf : List String) (row : Row) : Row :=
  qf.map (fun c => (c, (row.lookup c).getD .null))

/-- Building and executing the SELECT of `read_data` (lines 230-252):
`table.columns[field]` raises `KeyError` for an unknown column while the
statement is being built; otherwise the statement returns the rows matching
the conjunction of the filters, projected onto the requested columns
(`query_fields = none` models `"*"`, selecting every column). -/
def execSelect (t : DbTable) (qf : Option (List String)) (ff : Dict) :
    Except PyErr (List Row) :=
  let colsOk := (match qf with
      | some l => l.all t.cols.contains
      | none => true) && ff.all (fun p => t.cols.contains p.1)
  if colsOk then
    .ok ((t.rows.filter (fun r => rowMatches r ff)).map
      (fun r => projectRow (match qf with | some l => l | none => t.cols) r))
  else
    .error .keyError

/-- `SqlManager.read_data` (sqlmanager.py 216-254): the SELECT is built and
executed (line 252), and then line 253 evaluates the stray, argument-less
`pd.read_sql_query()`, which raises `TypeError` unconditionally — the
materialized frame on line 254 is never reached. -/
def SqlManager.read_data (t : DbTable) (qf : Option (List String)) (ff : Dict) :
    Except PyErr (List Row) :=
  match execSelect t qf ff with
  | .error e => .error e
  | .ok _ => .error .typeError

/-! ## `infer_sql_type` (utils.py 13-32) -/

/-- The storage column types `infer_sql_type` can produce. -/
inductive SqlTy
  | string (len : Option Nat)
  | integer
  | doublePrecision
  | date
  | dateTime
  deriving DecidableEq

/-- The category of a Python value, as the `isinstance` chain of
`infer_sql_type` distinguishes them. -/
inductive PyTypeDesc
  /-- already a `sqlalchemy` `TypeEngine` instance. -/
  | typeEngine (t : SqlTy)
  /-- a `str`. -/
  | pystr (s : String)
  /-- an `int` or `np.signedinteger`. -/
  | pyint (n : Int)
  /-- a `bool` or `np.bool_` (in Python also an instance of `int`). -/
  | pybool (b : Bool)
  /-- a `float` or `np.floating`. -/
  | pyfloat
  /-- a `datetime.datetime`, `pd.Timestamp` or `np.datetime64`. -/
  | pydatetime
  /-- a `datetime.date` that is not a `datetime`. -/
  | pydate
  /-- anything else (complex, None, ...). -/
  | pyother (name : String)
  deriving DecidableEq

/-- An extra argument carried in a `(type, *args)` tuple descriptor. -/
inductive PyArg
  | nat (n : Nat)
  | bool (b : Bool)
  deriving DecidableEq

/-- The input of `infer_sql_type`: either a bare descriptor or a tuple/list
`(descriptor, *args)` (unpacked on line 17). -/
inductive InferInput
  | plain (d : PyTypeDesc)
  | seq (d : PyTypeDesc) (args : List PyArg)
  deriving DecidableEq

/-- `String(*args)`: an optional leading length argument. -/
def stringArgsLen : List PyArg → Option Nat
  | .nat n :: _ => some n
  | _ => none

/-- `infer_sql_type` (utils.py 13-32), line by line: a bare `TypeEngine` is
returned unchanged (line 14); a tuple or list is unpacked (line 17); then
strings give `String(*args)` (line 21), ints give `Integer()` (line 23) —
which in Python also catches `bool`, a subclass of `int` — and floats give
`DOUBLE_PRECISION()` (line 25).  Any remaining input reaches line 28, whose
`isinstance` tuple evaluates the name `numpy` — but the module was imported
as `np`, so the bare name is unbound and `NameError` is raised.  The
`Date()`/`DateTime()` results of lines 29-31 and the `ValueError` of line 32
are unreachable. -/
def infer_sql_type : InferInput → Except PyErr SqlTy
  | .plain (.typeEngine t) => .ok t
  | x =>
    let p : PyTypeDesc × List PyArg :=
      match x with
      | .seq d args => (d, args)
      | .plain d => (d, [])
    match p.1 with
    | .pystr _ => .ok (.string (stringArgsLen p.2))
    | .pyint _ => .ok .integer
    | .pybool _ => .ok .integer
    | .pyfloat => .ok .doublePrecision
    | _ => .error .nameError

/-! ## The metadata store (metadata_sql.py) -/

/-- metadata_sql.py 17-29. -/
def COMMON_METADATA_COLUMNS : List String :=
  ["name", "trading_code", "inst_type", "currency", "timezone", "tick_size",
   "lot_size", "min_lots", "market_tplus", "listed_date", "delisted_date"]

/-- metadata_sql.py 30-34. -/
def TYPE_METADATA_COLUMNS : List (String × List String) :=
  [("STK", ["country", "state", "board_type", "issue_price"]),
   ("ETF", ["issuer", "current_mgr", "custodian", "issuer_country", "fund_type", "benchmark"]),
   ("LOF", ["issuer", "current_mgr", "custodian", "issuer_country", "fund_type", "benchmark"])]

/-- The string held by an `inst_type` cell (such cells are always strings in
this data model; any other value renders as the empty string). -/
def valStr : Option Val → String
  | some (.str s) => s
  | _ => ""

/-- The distinct elements of a list, first occurrence first (the set of keys
a pandas `groupby` produces; the claims never depend on key order). -/
def firstDistinct {α : Type} [BEq α] (l : List α) : List α :=
  l.foldl (fun acc k => if acc.contains k then acc else acc ++ [k]) []

/-- A pandas data frame: the names of its row-index levels, its data
columns, and its rows (index levels and data columns together in one
association list per row). -/
structure PdFrame where
  indexCols : List String
  cols : List String
  rows : List Row
  deriving DecidableEq

/-- The argument of `update_instrument_metadata`: a single dict record, a
list of dict records, or a DataFrame. -/
inductive UpdateData
  | record (r : Row)
  | records (rs : List Row)
  | frame (f : PdFrame)
  deriving DecidableEq

/-- Reading the `.columns` attribute: only a DataFrame has it; a `dict` or a
`list` raises `AttributeError`. -/
def UpdateData.columnsAttr : UpdateData → Except PyErr (List String)
  | .frame f => .ok f.cols
  | _ => .error .attributeError

/-- `data.set_index(["ticker", "exchange"])` when both are data columns,
else the `assert set(data.index.names) == {"ticker", "exchange"}` of
metadata_sql.py line 90. -/
def setIndexTickerExchange (f : PdFrame) : Except PyErr PdFrame :=
  if f.cols.contains "ticker" && f.cols.contains "exchange" then
    .ok ⟨["ticker", "exchange"],
         f.cols.filter (fun c => !(c == "ticker" || c == "exchange")), f.rows⟩
  else if f.indexCols.contains "ticker" && f.indexCols.contains "exchange"
      && f.indexCols.all (fun c => c == "ticker" || c == "exchange") then
    .ok f
  else
    .error .assertionError

/-- The sub-frame holding the given data columns (plus the index levels) of
each row. -/
def subFrame (f : PdFrame) (cs : List String) : PdFrame :=
  ⟨f.indexCols, cs, f.rows.map (fun r => projectRow (f.indexCols ++ cs) r)⟩

/-- `MetadataSql.update_instrument_metadata` (metadata_sql.py 71-100),
returning the list of `(table, frame)` upserts it hands to
`SqlManager.insert`.  Line 78 evaluates `data.columns` — before the
dict-to-list-to-DataFrame normalization of lines 83-86 — so a dict or list
argument raises `AttributeError` immediately.  Line 79 then raises
`ValueError` ("Non-common columns found ... but inst_type column not
provided") when some column lies outside `COMMON_METADATA_COLUMNS` (note
`ticker` and `exchange` are outside it) and `inst_type` is not a column.
Otherwise the frame is indexed by `(ticker, exchange)`, the common-column
subset is upserted into `instruments`, and, when `inst_type` is a column,
each `inst_type` group's type-specific subset is upserted into its type
table (unknown types, and groups with an empty column intersection, are
skipped). -/
def MetadataSql.update_instrument_metadata (d : UpdateData) :
    Except PyErr (List (String × PdFrame)) := do
  let cols ← d.columnsAttr
  let tsc := cols.filter (fun c => !COMMON_METADATA_COLUMNS.contains c)
  if !cols.contains "inst_type" && !tsc.isEmpty then
    .error .valueError
  else
    let f0 := match d with
      | .frame f => f
      | .record r => ⟨[], cols, [r]⟩
      | .records rs => ⟨[], cols, rs⟩
    let f ← setIndexTickerExchange f0
    let commonCols := f.cols.filter (fun c => COMMON_METADATA_COLUMNS.contains c)
    let commonWrite := [("instruments", subFrame f commonCols)]
    if f.cols.contains "inst_type" then
      let typeWrites :=
        (firstDistinct (f.rows.map (fun r => valStr (r.lookup "inst_type")))).foldl
          (fun acc ty =>
            let grp := f.rows.filter (fun r => valStr (r.lookup "inst_type") == ty)
            match TYPE_METADATA_COLUMNS.lookup ty with
            | some tyCols =>
              let cs := f.cols.filter (fun c => tyCols.contains c)
              if grp.isEmpty || cs.isEmpty then acc
              else acc ++ [("instruments_" ++ ty.toLower,
                            subFrame ⟨f.indexCols, cs, grp⟩ cs)]
            | none => acc) []
      .ok (commonWrite ++ typeWrites)
    else
      .ok commonWrite

/-- A `ticker`/`exchange` argument of the metadata readers: a plain string
scalar, or a list (a non-string `Container`). -/
inductive SeqArg
  | one (s : String)
  | many (l : List String)
  deriving DecidableEq

/-- Python `len` of the argument: a list's length, or — for a scalar
string — its character count. -/
def SeqArg.pyLen : SeqArg → Nat
  | .one s => s.length
  | .many l => l.length

/-- The filter value the argument becomes inside `filter_fields`: scalars
filter by equality, lists by membership. -/
def SeqArg.toFilterVal : SeqArg → FilterVal
  | .one s => .single (.str s)
  | .many l => .multi (l.map Val.str)

/-- Python `d[k] = v` on a dict modelled as an association list: replace the
entry if the key is present, append it otherwise. -/
def dictSet (d : Dict) (k : String) (v : FilterVal) : Dict :=
  if d.any (fun p => p.1 == k) then
    d.map (fun p => if p.1 == k then (k, v) else p)
  else
    d ++ [(k, v)]

/-- metadata_sql.py 129-134: the ticker and exchange writes into the working
filter dict, and the paired-length assert.  The `ticker` entry (line 130) is
written before the assert on line 133, which fires when `exchange` is a
non-string container, `ticker` was also given, and `len(exchange)` differs
from `len(ticker)` — for a scalar string ticker, Python `len` is its
character count.  Returns the dict after the writes that did execute, plus
the error if the assert fired. -/
def rmFilterSteps (d : Dict) (ticker exchange : Option SeqArg) :
    Dict × Option PyErr :=
  let d1 := match ticker with
    | some t => dictSet d "ticker" t.toFilterVal
    | none => d
  match exchange with
  | none => (d1, none)
  | some e =>
    match e, ticker with
    | .many l, some t =>
        if l.length = t.pyLen then (dictSet d1 "exchange" e.toFilterVal, none)
        else (d1, some .assertionError)
    | _, _ => (dictSet d1 "exchange" e.toFilterVal, none)

/-- Whether the paired-length assert of metadata_sql.py line 133 fires for
the given ticker and exchange arguments: exchange is a non-string container,
ticker was also given, and their Python lengths differ. -/
def pairedLenAssertFires (ticker : Option SeqArg) (exchange : SeqArg) : Bool :=
  match exchange, ticker with
  | .many l, some t => !(l.length == t.pyLen)
  | _, _ => false

/-- The caller's `filter_fields` object after `read_metadata` returns or
raises: line 128 (`filter_fields = filter_fields or {}`) rebinds the local
name to a fresh dict when the caller's mapping is empty (it is falsy), so
the writes of lines 130 and 134 only reach a non-empty caller dict. -/
def rmCallerDictAfter (d : Dict) (ticker exchange : Option SeqArg) : Dict :=
  if d.isEmpty then d else (rmFilterSteps d ticker exchange).1

/-- The caller's `filter_fields` object after `read_metadata_for_insttype`
(metadata_sql.py 205-212): same shape, except that the `inst_type` entry is
written first (line 206), unconditionally. -/
def rmitCallerDictAfter (d : Dict) (instType : String)
    (ticker exchange : Option SeqArg) : Dict :=
  if d.isEmpty then d
  else (rmFilterSteps (dictSet d "inst_type" (.single (.str instType)))
    ticker exchange).1

/-- `query_fields_common` (metadata_sql.py 135-139) for an explicit field
list: `ticker` and `exchange` prepended to the requested fields that lie in
the common column set. -/
def rmQueryFieldsCommon (l : List String) : List String :=
  ["ticker", "exchange"] ++ l.filter (fun f => COMMON_METADATA_COLUMNS.contains f)

/-- `filter_fields_common` (metadata_sql.py 140-142): the filters whose key
is `ticker`, `exchange` or a common column. -/
def rmFilterFieldsCommon (d : Dict) : Dict :=
  d.filter (fun p =>
    p.1 == "ticker" || p.1 == "exchange" || COMMON_METADATA_COLUMNS.contains p.1)

/-- `all_fields_common` (metadata_sql.py 143-147): true exactly when
`query_fields` is an explicit list, `len(query_fields_common)` equals
`len(query_fields)`, and `len(filter_fields_common)` equals
`len(filter_fields)`.  Since `query_fields_common` always starts with the
two prepended identifier columns, the length test holds only when exactly
two of the requested fields lie outside the common column set. -/
def rmAllFieldsCommon (qf : Option (List String)) (d : Dict) : Bool :=
  match qf with
  | some l =>
      ((rmQueryFieldsCommon l).length == l.length)
        && ((rmFilterFieldsCommon d).length == d.length)
  | none => false

/-- The metadata database: the common `instruments` table and the
type-specific tables, keyed here by instrument type (the live table name is
`"instruments_" ++ type.toLower`).  A type with no entry stands for a
missing table. -/
structure MetaDB where
  instruments : DbTable
  typeTables : List (String × DbTable)

/-- The type table for an instrument type (empty when absent; the live code
would raise on reflection of a missing table, a case no claim reaches). -/
def MetaDB.typeTableFor (db : MetaDB) (ty : String) : DbTable :=
  (db.typeTables.lookup ty).getD ⟨[], []⟩

/-- The inner merge of metadata_sql.py line 177: each common-table row is
joined with each type-table row agreeing on `ticker` and `exchange`, the
type row contributing its non-identifier columns. -/
def innerMerge (l r : List Row) : List Row :=
  (l.map (fun a =>
    (r.filter (fun b =>
        a.lookup "ticker" == b.lookup "ticker"
          && a.lookup "exchange" == b.lookup "exchange")).map
      (fun b => a ++ b.filter (fun p => !(p.1 == "ticker" || p.1 == "exchange"))))).flatten

/-- The per-instrument-type loop of `read_metadata` (metadata_sql.py
157-178), returning the type tables it reads (by live table name) and the
per-type results.  On the all-common fast path each group of the common
result is returned directly (line 159-165); otherwise the type table is
queried, filtered down to the group's identifiers, and inner-merged
(lines 166-178).  The index shaping of lines 161-164 and 178 (identifier
columns moved into the row index when other columns are present) does not
change row contents and is not modelled. -/
def rmTypeLoop (db : MetaDB) (qf : Option (List String)) (ffd : Dict)
    (allCommon : Bool) (commonDf : List Row) :
    List String → List String × Except PyErr (List (String × List Row))
  | [] => ([], .ok [])
  | ty :: rest =>
    let grp := commonDf.filter (fun r => valStr (r.lookup "inst_type") == ty)
    if allCommon then
      let z := rmTypeLoop db qf ffd allCommon commonDf rest
      (z.1, z.2.map (fun l => (ty, grp) :: l))
    else
      let tyCols := (TYPE_METADATA_COLUMNS.lookup ty).getD []
      let qft : Option (List String) :=
        match qf with
        | some l => some (["ticker", "exchange"] ++ l.filter (fun f => tyCols.contains f))
        | none => none
      let fft := ffd.filter (fun p => tyCols.contains p.1)
        ++ [("ticker", .multi (grp.map (fun r => (r.lookup "ticker").getD .null))),
            ("exchange", .multi (grp.map (fun r => (r.lookup "exchange").getD .null)))]
      let tbl := "instruments_" ++ ty.toLower
      match SqlManager.read_data (db.typeTableFor ty) qft fft with
      | .error e => ([tbl], .error e)
      | .ok typeDf =>
        let merged := innerMerge grp typeDf
        let z := rmTypeLoop db qf ffd allCommon commonDf rest
        (tbl :: z.1, z.2.map (fun l => (ty, merged) :: l))

/-- `MetadataSql.read_metadata` (metadata_sql.py 107-179), returning the
list of tables it reads, in order, together with the outcome (the per-type
result mapping, or the exception raised).  The common-table read on
line 150-152 passes the full working filter dict (not the common subset)
and a field list extended with `inst_type` when it was not requested
(lines 148-149); `query_fields = none` models `"*"`. -/
def MetadataSql.read_metadata (db : MetaDB) (ticker exchange : Option SeqArg)
    (qf : Option (List String)) (ff0 : Option Dict) :
    List String × Except PyErr (List (String × List Row)) :=
  let s := rmFilterSteps (ff0.getD []) ticker exchange
  match s.2 with
  | some e => ([], .error e)
  | none =>
    let ffd := s.1
    let qfc : Option (List String) :=
      match qf with
      | some l =>
          some (if l.contains "inst_type" then rmQueryFieldsCommon l
                else rmQueryFieldsCommon l ++ ["inst_type"])
      | none => none
    let allCommon := rmAllFieldsCommon qf ffd
    match SqlManager.read_data db.instruments qfc ffd with
    | .error e => (["instruments"], .error e)
    | .ok commonDf =>
      if commonDf.isEmpty then (["instruments"], .ok [])
      else
        let z := rmTypeLoop db qf ffd allCommon commonDf
          (firstDistinct (commonDf.map (fun r => valStr (r.lookup "inst_type"))))
        ("instruments" :: z.1, z.2)

/-! ## `SqlManager.rename_column` (sqlmanager.py 149-176)

Index definitions are modelled at the token level: an index is its name, its
table, and the list of column names appearing inside the parenthesized part
of its definition.  The catalog query of line 161 (indexdef LIKE
'%(%old%)%' and tablename = table) then reads as "the index is on this table
and the old column name is among its columns", and the regex substitution of
line 174 as replacing that column name inside the parenthesized list — both
are exact for column names that are whole tokens of the definition, the
reading the specification also adopts (it requires callers to keep column
names from being substrings of other identifiers).  Line 173's
`index_name.replace(old, new)` is string replacement on the index name and
is modelled as such. -/

/-- An index as pg_indexes shows it: name, table, and the column tokens of
its definition. -/
structure IndexDef where
  name : String
  table : String
  cols : List String
  deriving DecidableEq

/-- A database schema: tables (name and column list) and indexes. -/
structure PgDB where
  tables : List (String × List String)
  indexes : List IndexDef
  deriving DecidableEq

/-- Replace one column-name token. -/
def renameTok (a b s : String) : String :=
  if s = a then b else s

/-- `SqlManager.rename_column` (sqlmanager.py 149-176): discover the indexes
of the table whose definition references the old column name (line 161),
drop them (lines 165-166), rename the column (line 169), and recreate each
dropped index under the substituted name and definition (lines 172-176). -/
def SqlManager.rename_column (db : PgDB) (tbl a b : String) : PgDB :=
  let referring := db.indexes.filter (fun i => i.table == tbl && i.cols.contains a)
  let kept := db.indexes.filter (fun i => !(i.table == tbl && i.cols.contains a))
  let tables := db.tables.map
    (fun p => if p.1 == tbl then (p.1, p.2.map (renameTok a b)) else p)
  let recreated := referring.map
    (fun i => ⟨i.name.replace a b, i.table, i.cols.map (renameTok a b)⟩)
  ⟨tables, kept ++ recreated⟩

/-! ## `read_max_in_group` and `read_latest_convert_price`
(metadata_sql_cb.py 14-45) -/

/-- Strict order on cell values, for picking a maximum. -/
def Val.lt : Val → Val → Bool
  | .int a, .int b => decide (a < b)
  | .str a, .str b => decide (a < b)
  | _, _ => false

/-- The values of the grouping columns of a row. -/
def groupKey (groupCols : List String) (r : Row) : List (Option Val) :=
  groupCols.map (fun c => r.lookup c)

/-- The row with the maximum value of the given field (first such row on
ties), `none` for an empty list. -/
def maxByField (field : String) : List Row → Option Row
  | [] => none
  | r :: rest =>
      some (rest.foldl (fun best x =>
        if Val.lt ((best.lookup field).getD .null) ((x.lookup field).getD .null)
        then x else best) r)

/-- Modelled from the spec: `SqlManager.read_max_in_group` is called by
`CBMetadataSql.read_latest_convert_price` (metadata_sql_cb.py line 42) but
is not among the source files.  Per the specification (section 4.4 and the
glossary's "grouped top-1"), it is a grouped top-1 selection over the named
table's rows: restrict to the rows matching `filter_fields` (same semantics
as `read_data`), partition them by the grouping columns, pick within each
partition the row with the maximum value of the ordering field, and project
the grouping columns and requested fields. -/
def SqlManager.read_max_in_group (rows : List Row)
    (fields groupCols : List String) (latestBy : String) (ff : Dict) :
    List Row :=
  let cand := rows.filter (fun r => rowMatches r ff)
  (firstDistinct (cand.map (groupKey groupCols))).filterMap (fun k =>
    (maxByField latestBy (cand.filter (fun r => groupKey groupCols r == k))).map
      (fun r => projectRow (groupCols ++ fields) r))

/-- `CBMetadataSql.read_latest_convert_price` (metadata_sql_cb.py 14-45):
assemble `filter_fields` from the optional ticker and exchange arguments
(`None` when both are absent, modelled as the empty filter dict, which
`read_max_in_group` treats identically) and delegate to
`read_max_in_group` on the `cb_convert_price_history` rows, grouping by
`(ticker, exchange)` and ordering by `latest_by`.  The final
`set_index(["ticker", "exchange"])` moves identifier columns into the row
index without changing row contents and is not modelled. -/
def CBMetadataSql.read_latest_convert_price (historyRows : List Row)
    (fields : List String) (tickers exchanges : Option SeqArg)
    (latestBy : String) : List Row :=
  let ff : Dict :=
    (match tickers with
      | some t => [("ticker", t.toFilterVal)]
      | none => [])
    ++ (match exchanges with
      | some e => [("exchange", e.toFilterVal)]
      | none => [])
  SqlManager.read_max_in_group historyRows fields ["ticker", "exchange"] latestBy ff
/-! ## Lemmas about association-list lookup and the upsert semantics -/

theorem keysContains_of_mem {K : Type} [DecidableEq K] {l : List K} {a : K}
    (h : a ∈ l) : l.contains a = true := by
  simpa using h

theorem mem_of_keysContains {K : Type} [DecidableEq K] {l : List K} {a : K}
    (h : l.contains a = true) : a ∈ l := by
  simpa using h

theorem lookup_cons_self {K V : Type} [DecidableEq K] (p : K × V)
    (es : List (K × V)) : (p :: es).lookup p.1 = some p.2 := by
  obtain ⟨pk, pv⟩ := p
  simp [List.lookup_cons]

theorem lookup_cons_of_ne {K V : Type} [DecidableEq K] (p : K × V)
    (es : List (K × V)) (a : K) (h : ¬a = p.1) :
    (p :: es).lookup a = es.lookup a := by
  obtain ⟨pk, pv⟩ := p
  have hb : (a == pk) = false := beq_eq_false_iff_ne.mpr h
  simp [List.lookup_cons, hb]

theorem upsertRow_keys_of_mem {K V : Type} [DecidableEq K]
    (t : List (K × V)) (r : K × V) (h : r.1 ∈ t.map Prod.fst) :
    (upsertRow t r).map Prod.fst = t.map Prod.fst := by
  unfold upsertRow
  rw [if_pos (keysContains_of_mem h), List.map_map]
  apply List.map_congr_left
  intro x _
  simp only [Function.comp_apply]
  by_cases hx : x.1 = r.1
  · rw [if_pos hx]
    exact hx.symm
  · rw [if_neg hx]

theorem upsertRow_length_of_mem {K V : Type} [DecidableEq K]
    (t : List (K × V)) (r : K × V) (h : r.1 ∈ t.map Prod.fst) :
    (upsertRow t r).length = t.length := by
  unfold upsertRow
  rw [if_pos (keysContains_of_mem h)]
  exact List.length_map t _

theorem self_mem_keys_upsertRow {K V : Type} [DecidableEq K]
    (t : List (K × V)) (r : K × V) :
    r.1 ∈ (upsertRow t r).map Prod.fst := by
  by_cases hc : (t.map Prod.fst).contains r.1
  · rw [upsertRow_keys_of_mem t r (mem_of_keysContains hc)]
    exact mem_of_keysContains hc
  · unfold upsertRow
    rw [if_neg hc]
    simp

theorem mem_keys_upsertRow {K V : Type} [DecidableEq K]
    (t : List (K × V)) (r : K × V) (k : K) (h : k ∈ t.map Prod.fst) :
    k ∈ (upsertRow t r).map Prod.fst := by
  by_cases hc : (t.map Prod.fst).contains r.1
  · rw [upsertRow_keys_of_mem t r (mem_of_keysContains hc)]
    exact h
  · unfold upsertRow
    rw [if_neg hc]
    simp [h]

theorem mem_keys_upsertRows {K V : Type} [DecidableEq K]
    (df : List (K × V)) (k : K) :
    ∀ t : List (K × V), k ∈ t.map Prod.fst →
      k ∈ (upsertRows t df).map Prod.fst := by
  induction df with
  | nil => exact fun t h => h
  | cons r rest ih =>
    intro t h
    exact ih (upsertRow t r) (mem_keys_upsertRow t r k h)

theorem df_keys_mem_upsertRows {K V : Type} [DecidableEq K]
    (df : List (K × V)) (k : K) (h : k ∈ df.map Prod.fst) :
    ∀ t : List (K × V), k ∈ (upsertRows t df).map Prod.fst := by
  induction df with
  | nil => cases h
  | cons r rest ih =>
    intro t
    rcases List.mem_cons.mp h with h1 | h2
    · subst h1
      exact mem_keys_upsertRows rest _ (upsertRow t r) (self_mem_keys_upsertRow t r)
    · exact ih h2 (upsertRow t r)

theorem upsertRows_keys_and_length {K V : Type} [DecidableEq K]
    (df : List (K × V)) :
    ∀ t : List (K × V), (∀ k ∈ df.map Prod.fst, k ∈ t.map Prod.fst) →
      (upsertRows t df).map Prod.fst = t.map Prod.fst
        ∧ (upsertRows t df).length = t.length := by
  induction df with
  | nil => exact fun t _ => ⟨rfl, rfl⟩
  | cons r rest ih =>
    intro t h
    have hr : r.1 ∈ t.map Prod.fst := h r.1 (by simp)
    have hk := upsertRow_keys_of_mem t r hr
    have hl := upsertRow_length_of_mem t r hr
    have hrest : ∀ k ∈ rest.map Prod.fst, k ∈ (upsertRow t r).map Prod.fst := by
      intro k hk2
      rw [hk]
      exact h k (by simp [hk2])
    have hih := ih (upsertRow t r) hrest
    exact ⟨hih.1.trans hk, hih.2.trans hl⟩

theorem lookup_map_replace {K V : Type} [DecidableEq K]
    (t : List (K × V)) (r : K × V) (k : K) (hk : ¬k = r.1) :
    (t.map (fun x => if x.1 = r.1 then r else x)).lookup k = t.lookup k := by
  induction t with
  | nil => rfl
  | cons x xs ih =>
    simp only [List.map_cons]
    by_cases hx : x.1 = r.1
    · rw [if_pos hx]
      rw [lookup_cons_of_ne r _ k hk]
      rw [lookup_cons_of_ne x xs k (fun he => hk (he.trans hx))]
      exact ih
    · rw [if_neg hx]
      by_cases hxk : k = x.1
      · rw [hxk, lookup_cons_self x _, lookup_cons_self x xs]
      · rw [lookup_cons_of_ne x _ k hxk, lookup_cons_of_ne x xs k hxk]
        exact ih

theorem lookup_map_replace_self {K V : Type} [DecidableEq K]
    (t : List (K × V)) (r : K × V) (h : r.1 ∈ t.map Prod.fst) :
    (t.map (fun x => if x.1 = r.1 then r else x)).lookup r.1 = some r.2 := by
  induction t with
  | nil => cases h
  | cons x xs ih =>
    simp only [List.map_cons]
    by_cases hx : x.1 = r.1
    · rw [if_pos hx]
      exact lookup_cons_self r _
    · rw [if_neg hx]
      rw [lookup_cons_of_ne x _ r.1 (fun he => hx he.symm)]
      apply ih
      simp only [List.map_cons, List.mem_cons] at h
      rcases h with h1 | h2
      · exact absurd h1.symm hx
      · exact h2

theorem lookup_append_singleton {K V : Type} [DecidableEq K]
    (t : List (K × V)) (r : K × V) (k : K) (hk : ¬k = r.1) :
    (t ++ [r]).lookup k = t.lookup k := by
  induction t with
  | nil =>
    simp only [List.nil_append, List.lookup_nil]
    rw [lookup_cons_of_ne r [] k hk]
    rfl
  | cons x xs ih =>
    rw [List.cons_append]
    by_cases hxk : k = x.1
    · rw [hxk, lookup_cons_self x _, lookup_cons_self x xs]
    · rw [lookup_cons_of_ne x _ k hxk, lookup_cons_of_ne x xs k hxk]
      exact ih

theorem lookup_append_singleton_self {K V : Type} [DecidableEq K]
    (t : List (K × V)) (r : K × V) (h : r.1 ∉ t.map Prod.fst) :
    (t ++ [r]).lookup r.1 = some r.2 := by
  induction t with
  | nil => simpa using lookup_cons_self r []
  | cons x xs ih =>
    have hx : ¬r.1 = x.1 := fun he => h (by simp [he])
    rw [List.cons_append, lookup_cons_of_ne x _ r.1 hx]
    exact ih (fun hm => h (by simp [hm]))

theorem lookup_eq_none_of_not_mem_keys {K V : Type} [DecidableEq K]
    (t : List (K × V)) (k : K) (h : k ∉ t.map Prod.fst) :
    t.lookup k = none := by
  induction t with
  | nil => rfl
  | cons x xs ih =>
    have hx : ¬k = x.1 := fun he => h (by simp [he.symm])
    rw [lookup_cons_of_ne x xs k hx]
    exact ih (fun hm => h (by simp [hm]))

theorem lookup_upsertRow_self {K V : Type} [DecidableEq K]
    (t : List (K × V)) (r : K × V) :
    (upsertRow t r).lookup r.1 = some r.2 := by
  by_cases hc : (t.map Prod.fst).contains r.1
  · unfold upsertRow
    rw [if_pos hc]
    exact lookup_map_replace_self t r (mem_of_keysContains hc)
  · unfold upsertRow
    rw [if_neg hc]
    exact lookup_append_singleton_self t r (fun hm => hc (keysContains_of_mem hm))

theorem lookup_upsertRow_other {K V : Type} [DecidableEq K]
    (t : List (K × V)) (r : K × V) (k : K) (hk : ¬k = r.1) :
    (upsertRow t r).lookup k = t.lookup k := by
  by_cases hc : (t.map Prod.fst).contains r.1
  · unfold upsertRow
    rw [if_pos hc]
    exact lookup_map_replace t r k hk
  · unfold upsertRow
    rw [if_neg hc]
    exact lookup_append_singleton t r k hk

theorem lookup_upsertRows_not_mem {K V : Type} [DecidableEq K]
    (df : List (K × V)) (k : K) (h : k ∉ df.map Prod.fst) :
    ∀ t : List (K × V), (upsertRows t df).lookup k = t.lookup k := by
  induction df with
  | nil => exact fun t => rfl
  | cons r rest ih =>
    intro t
    have hk : ¬k = r.1 := fun he => h (by simp [he])
    have hstep := ih (fun hm => h (by simp [hm])) (upsertRow t r)
    exact hstep.trans (lookup_upsertRow_other t r k hk)

theorem lookup_upsertRows_of_mem {K V : Type} [DecidableEq K]
    (df : List (K × V)) (hnd : (df.map Prod.fst).Nodup)
    (p : K × V) (hp : p ∈ df) :
    ∀ t : List (K × V), (upsertRows t df).lookup p.1 = some p.2 := by
  induction df with
  | nil => cases hp
  | cons r rest ih =>
    intro t
    simp only [List.map_cons, List.nodup_cons] at hnd
    rcases List.mem_cons.mp hp with h1 | h2
    · subst h1
      exact (lookup_upsertRows_not_mem rest p.1 hnd.1 (upsertRow t p)).trans
        (lookup_upsertRow_self t p)
    · exact ih hnd.2 h2 (upsertRow t r)

theorem insert_upsert_ok_rows {K V : Type} [DecidableEq K]
    (t t' : SqlTable K V) (df : List (K × V))
    (h : SqlManager.insert (some t) df true = .ok t') :
    t'.rows = upsertRows t.rows df ∧ hasDupKeys df = false := by
  by_cases hd : hasDupKeys df
  · simp [SqlManager.insert, insertOnConflictUpdate, hd, Except.map] at h
  · rw [Bool.not_eq_true] at hd
    simp [SqlManager.insert, insertOnConflictUpdate, hd, Except.map] at h
    exact ⟨by rw [← h], hd⟩

theorem nodup_of_hasDupKeys_false {K V : Type} [DecidableEq K]
    (df : List (K × V)) (h : hasDupKeys df = false) :
    (df.map Prod.fst).Nodup := by
  unfold hasDupKeys at h
  simpa using h

/-! ## Lemmas about dict mutation -/

theorem lookup_dictReplace (d : Dict) (k : String) (v : FilterVal)
    (h : d.any (fun p => p.1 == k) = true) :
    (d.map (fun p => if p.1 == k then (k, v) else p)).lookup k = some v := by
  induction d with
  | nil => cases h
  | cons p ps ih =>
    simp only [List.map_cons]
    by_cases hp : (p.1 == k) = true
    · rw [if_pos hp]
      exact lookup_cons_self (k, v) _
    · rw [if_neg hp]
      rw [lookup_cons_of_ne p _ k (fun he => hp (beq_iff_eq.mpr he.symm))]
      apply ih
      simp only [List.any_cons, Bool.or_eq_true] at h
      rcases h with h1 | h2
      · exact absurd h1 hp
      · exact h2

theorem dictSet_lookup_self (d : Dict) (k : String) (v : FilterVal) :
    (dictSet d k v).lookup k = some v := by
  unfold dictSet
  by_cases h : d.any (fun p => p.1 == k)
  · rw [if_pos h]
    exact lookup_dictReplace d k v h
  · rw [if_neg h]
    have hnm : ((k, v) : String × FilterVal).1 ∉ d.map Prod.fst := by
      intro hm
      apply h
      rcases List.mem_map.mp hm with ⟨p, hp, hpk⟩
      refine List.any_eq_true.mpr ⟨p, hp, ?_⟩
      exact beq_iff_eq.mpr hpk
    exact lookup_append_singleton_self d (k, v) hnm

theorem lookup_dictReplace_other (d : Dict) (k q : String) (v : FilterVal)
    (h : ¬q = k) :
    (d.map (fun p => if p.1 == k then (k, v) else p)).lookup q = d.lookup q := by
  induction d with
  | nil => rfl
  | cons p ps ih =>
    simp only [List.map_cons]
    by_cases hp : (p.1 == k) = true
    · rw [if_pos hp]
      rw [lookup_cons_of_ne (k, v) _ q h]
      rw [lookup_cons_of_ne p ps q (fun he => h (he.trans (beq_iff_eq.mp hp)))]
      exact ih
    · rw [if_neg hp]
      by_cases hq : q = p.1
      · rw [hq, lookup_cons_self p _, lookup_cons_self p ps]
      · rw [lookup_cons_of_ne p _ q hq, lookup_cons_of_ne p ps q hq]
        exact ih

theorem dictSet_lookup_other (d : Dict) (q k : String) (v : FilterVal)
    (h : ¬q = k) : (dictSet d k v).lookup q = d.lookup q := by
  unfold dictSet
  by_cases ha : d.any (fun p => p.1 == k)
  · rw [if_pos ha]
    exact lookup_dictReplace_other d k q v h
  · rw [if_neg ha]
    exact lookup_append_singleton d (k, v) q h

/-! ## The claims -/

/-- C1 (code_bug evidence): with a pre-existing table holding the key
("AAPL", "NASDAQ") under a unique key index, calling `insert` again with
that key and `upsert = False` raises the engine's unique-constraint
violation — the conflicting row is not silently skipped, because `insert`
passes `method = None` (a plain INSERT) in that case and never uses
`_insert_on_conflict_nothing`. -/
theorem C1_no_upsert_conflict_raises :
    SqlManager.insert
      (some (⟨[((("AAPL", "NASDAQ") : String × String), (100 : Int))], true⟩ :
          SqlTable (String × String) Int))
      [((("AAPL", "NASDAQ") : String × String), (200 : Int))] false
      = .error .integrityError := by
  rfl

/-- C2 (code_bug evidence): `read_data` never returns a result: for every
table, field selection and filter mapping it raises — either `KeyError`
while building the statement, or, after the statement executed, the
`TypeError` from the stray argument-less `pd.read_sql_query()` call on
sqlmanager.py line 253. -/
theorem C2_read_data_never_returns (t : DbTable) (qf : Option (List String))
    (ff : Dict) : ∃ e, SqlManager.read_data t qf ff = .error e := by
  unfold SqlManager.read_data
  cases h : execSelect t qf ff with
  | error e => exact ⟨e, rfl⟩
  | ok l => exact ⟨.typeError, rfl⟩

/-- C3: on a pre-existing table, upserting a frame and then upserting a
second frame with the same keys leaves the row count unchanged after the
second call and makes every key's stored row equal to the second frame's
row (the whole row is overwritten, not merged field by field). -/
theorem C3_upsert_twice_converges {K V : Type} [DecidableEq K]
    (t t1 t2 : SqlTable K V) (df1 df2 : List (K × V))
    (hkeys : df2.map Prod.fst = df1.map Prod.fst)
    (h1 : SqlManager.insert (some t) df1 true = .ok t1)
    (h2 : SqlManager.insert (some t1) df2 true = .ok t2) :
    t2.rows.length = t1.rows.length
      ∧ ∀ p ∈ df2, t2.rows.lookup p.1 = some p.2 := by
  obtain ⟨hr1, hd1⟩ := insert_upsert_ok_rows t t1 df1 h1
  obtain ⟨hr2, hd2⟩ := insert_upsert_ok_rows t1 t2 df2 h2
  have hnd2 := nodup_of_hasDupKeys_false df2 hd2
  have hmem : ∀ k ∈ df2.map Prod.fst, k ∈ t1.rows.map Prod.fst := by
    intro k hk
    rw [hr1]
    exact df_keys_mem_upsertRows df1 k (hkeys ▸ hk) t.rows
  constructor
  · rw [hr2]
    exact (upsertRows_keys_and_length df2 t1.rows hmem).2
  · intro p hp
    rw [hr2]
    exact lookup_upsertRows_of_mem df2 hnd2 p hp t1.rows

/-- Witness for C3: a table with key "A", first upsert of keys A, B with
values 1, 2, second upsert of the same keys with values 10, 20. -/
theorem C3_upsert_twice_converges_witness :
    ([(("A" : String), (10 : Int)), ("B", 20)]).length
        = ([(("A" : String), (1 : Int)), ("B", 2)]).length
      ∧ ∀ p ∈ [(("A" : String), (10 : Int)), ("B", 20)],
          ([(("A" : String), (10 : Int)), ("B", 20)]).lookup p.1 = some p.2 :=
  C3_upsert_twice_converges ⟨[("A", 0)], true⟩ ⟨[("A", 1), ("B", 2)], true⟩
    ⟨[("A", 10), ("B", 20)], true⟩ [("A", 1), ("B", 2)] [("A", 10), ("B", 20)]
    rfl rfl rfl

/-- C4 (code_bug evidence): a single dict record — accepted per the
docstring and the spec — raises `AttributeError`, because line 78 of
metadata_sql.py reads `data.columns` before the dict-to-DataFrame
normalization of lines 83-86 runs. -/
theorem C4_update_metadata_dict_input_raises :
    MetadataSql.update_instrument_metadata
      (.record [("ticker", .str "AAPL"), ("exchange", .str "NASDAQ"),
                ("inst_type", .str "STK"), ("name", .str "Apple Inc")])
      = .error .attributeError := by
  rfl

/-- C5 (code_bug evidence): every datetime-like descriptor (with or without
the date-only flag), the plain date descriptor, and every unsupported
descriptor make `infer_sql_type` raise `NameError` — line 28 of utils.py
references `numpy`, but the module was imported as `np` — instead of the
claimed timestamp type, date type, or `UnsupportedType` failure. -/
theorem C5_infer_sql_type_datetime_and_fallback_raise :
    infer_sql_type (.plain .pydatetime) = .error .nameError
      ∧ infer_sql_type (.seq .pydatetime [.bool true]) = .error .nameError
      ∧ infer_sql_type (.plain .pydate) = .error .nameError
      ∧ infer_sql_type (.plain (.pyother "complex")) = .error .nameError :=
  ⟨rfl, rfl, rfl, rfl⟩

/-- C6 (amended): whenever `exchange` is a multi-valued sequence, `ticker`
is also given, and `len(exchange)` differs from `len(ticker)` — Python
`len`, i.e. the element count of a sequence ticker but the character count
of a scalar string ticker — `read_metadata` raises the paired-filter
assertion (the spec's `FilterMismatch`) and the query log is empty: no
table was read. -/
theorem C6_filter_mismatch_before_query (db : MetaDB) (t : SeqArg)
    (l : List String) (qf : Option (List String)) (ff0 : Option Dict)
    (h : ¬l.length = t.pyLen) :
    MetadataSql.read_metadata db (some t) (some (.many l)) qf ff0
      = ([], .error .assertionError) := by
  unfold MetadataSql.read_metadata rmFilterSteps
  simp [h]

/-- Witness for C6: the spec's own instance, exchange = ["NASDAQ", "NYSE"]
and ticker = "AAPL" (lengths 2 and 4). -/
theorem C6_filter_mismatch_witness :
    MetadataSql.read_metadata ⟨⟨[], []⟩, []⟩ (some (.one "AAPL"))
      (some (.many ["NASDAQ", "NYSE"])) none none
      = ([], .error .assertionError) :=
  C6_filter_mismatch_before_query ⟨⟨[], []⟩, []⟩ (.one "AAPL")
    ["NASDAQ", "NYSE"] none none (by decide)

/-- C6 (counterexample to the claim as stated): the scalar ticker "AB" —
one paired value against the two exchanges ["NASDAQ", "NYSE"], a paired
length mismatch of 1 vs 2 under the claim's reading — does not raise
`FilterMismatch`: the assert on metadata_sql.py line 133 compares Python
`len`, the character count 2 of "AB" against 2, so it passes and the
database is queried (the `instruments` read executes, after which the call
fails only with `read_data`'s unrelated stray TypeError). -/
theorem C6_scalar_pair_mismatch_not_raised :
    MetadataSql.read_metadata ⟨⟨["ticker", "exchange", "inst_type"], []⟩, []⟩
      (some (.one "AB")) (some (.many ["NASDAQ", "NYSE"])) none none
      = (["instruments"], .error .typeError) := by
  rfl

/-- C7 (code_bug evidence): `query_fields = ["name"]` requests only fields
of the common column set, yet `all_fields_common` is false (the length test
of metadata_sql.py line 144 compares against a list that always gains the
two prepended identifier columns), so the claimed fast path is not taken;
and the call, on a database whose common table holds a matching STK row,
reads the `instruments` table and then raises `TypeError` (the stray
argument-less `pd.read_sql_query()` inside `read_data`) instead of
returning the common-table result split by inst_type. -/
theorem C7_all_common_fast_path_code_bug :
    ("name" ∈ COMMON_METADATA_COLUMNS
      ∧ rmAllFieldsCommon (some ["name"]) [] = false)
    ∧ MetadataSql.read_metadata
        ⟨⟨["ticker", "exchange", "name", "inst_type"],
          [[("ticker", .str "AAPL"), ("exchange", .str "NASDAQ"),
            ("name", .str "Apple Inc"), ("inst_type", .str "STK")]]⟩,
          [("STK", ⟨["ticker", "exchange", "country"],
            [[("ticker", .str "AAPL"), ("exchange", .str "NASDAQ"),
              ("country", .str "US")]]⟩)]⟩
        none none (some ["name"]) none
        = (["instruments"], .error .typeError) :=
  ⟨⟨by decide, by decide⟩, by rfl⟩

/-- C8: renaming a column that at least one index of the table references
(a) leaves the set of table names — hence `table_exists` — unchanged,
(b) leaves in the index list a recreated index whose name and column list
carry the substitution, referencing the new column name and no longer the
old one, and (c) leaves no index of the table referencing the old column
name. -/
theorem C8_rename_column_preserves_and_renames (db : PgDB) (tbl a b : String)
    (hab : ¬a = b) (i : IndexDef) (hi : i ∈ db.indexes)
    (hit : i.table = tbl) (hic : a ∈ i.cols) :
    ((SqlManager.rename_column db tbl a b).tables.map Prod.fst
        = db.tables.map Prod.fst)
    ∧ (∃ j ∈ (SqlManager.rename_column db tbl a b).indexes,
        j.name = i.name.replace a b ∧ j.table = tbl
          ∧ j.cols = i.cols.map (renameTok a b) ∧ b ∈ j.cols ∧ a ∉ j.cols)
    ∧ (∀ j ∈ (SqlManager.rename_column db tbl a b).indexes,
        j.table = tbl → a ∉ j.cols) := by
  have hmapnot : ∀ cs : List String, a ∉ cs.map (renameTok a b) := by
    intro cs hm
    rcases List.mem_map.mp hm with ⟨c, _, hc⟩
    unfold renameTok at hc
    by_cases h : c = a
    · rw [if_pos h] at hc
      exact hab hc.symm
    · rw [if_neg h] at hc
      exact h hc
  refine ⟨?_, ?_, ?_⟩
  · show (db.tables.map
        (fun p => if p.1 == tbl then (p.1, p.2.map (renameTok a b)) else p)).map
          Prod.fst = db.tables.map Prod.fst
    rw [List.map_map]
    apply List.map_congr_left
    intro p _
    simp only [Function.comp_apply]
    by_cases hp : (p.1 == tbl) = true
    · rw [if_pos hp]
    · rw [if_neg hp]
  · refine ⟨⟨i.name.replace a b, i.table, i.cols.map (renameTok a b)⟩, ?_, rfl,
      hit, rfl, ?_, hmapnot i.cols⟩
    · show _ ∈ db.indexes.filter (fun x => !(x.table == tbl && x.cols.contains a))
        ++ (db.indexes.filter (fun x => x.table == tbl && x.cols.contains a)).map
          (fun x => ⟨x.name.replace a b, x.table, x.cols.map (renameTok a b)⟩)
      apply List.mem_append_right
      apply List.mem_map.mpr
      refine ⟨i, List.mem_filter.mpr ⟨hi, ?_⟩, rfl⟩
      rw [Bool.and_eq_true]
      exact ⟨beq_iff_eq.mpr hit, keysContains_of_mem hic⟩
    · exact List.mem_map.mpr ⟨a, hic, by unfold renameTok; rw [if_pos rfl]⟩
  · intro j hj hjt
    have hj2 : j ∈ db.indexes.filter (fun x => !(x.table == tbl && x.cols.contains a))
        ++ (db.indexes.filter (fun x => x.table == tbl && x.cols.contains a)).map
          (fun x => ⟨x.name.replace a b, x.table, x.cols.map (renameTok a b)⟩) := hj
    rcases List.mem_append.mp hj2 with hk | hr
    · have hkf := (List.mem_filter.mp hk).2
      intro hmem
      have hand : (j.table == tbl && j.cols.contains a) = true := by
        rw [Bool.and_eq_true]
        exact ⟨beq_iff_eq.mpr hjt, keysContains_of_mem hmem⟩
      rw [hand] at hkf
      simp at hkf
    · rcases List.mem_map.mp hr with ⟨i0, _, hji⟩
      rw [← hji]
      exact hmapnot i0.cols

/-- Witness for C8: a table `t` with columns a, x and a unique index
`uix_t_a` on column a, renamed a to c. -/
theorem C8_rename_column_witness :
    ((SqlManager.rename_column ⟨[("t", ["a", "x"])], [⟨"uix_t_a", "t", ["a"]⟩]⟩
          "t" "a" "c").tables.map Prod.fst
        = ([("t", ["a", "x"])] : List (String × List String)).map Prod.fst)
    ∧ (∃ j ∈ (SqlManager.rename_column
          ⟨[("t", ["a", "x"])], [⟨"uix_t_a", "t", ["a"]⟩]⟩ "t" "a" "c").indexes,
        j.name = ("uix_t_a" : String).replace "a" "c" ∧ j.table = "t"
          ∧ j.cols = (["a"] : List String).map (renameTok "a" "c")
          ∧ "c" ∈ j.cols ∧ "a" ∉ j.cols)
    ∧ (∀ j ∈ (SqlManager.rename_column
          ⟨[("t", ["a", "x"])], [⟨"uix_t_a", "t", ["a"]⟩]⟩ "t" "a" "c").indexes,
        j.table = "t" → "a" ∉ j.cols) :=
  C8_rename_column_preserves_and_renames
    ⟨[("t", ["a", "x"])], [⟨"uix_t_a", "t", ["a"]⟩]⟩ "t" "a" "c"
    (by decide) ⟨"uix_t_a", "t", ["a"]⟩ (by decide) rfl (by decide)

/-- C9: the grouped top-1 query of the spec's own example — two rows for one
identifier, dated 2024-01-01 with price 10 and 2024-02-01 with price 11 —
returns exactly the price-11 row when selecting the latest by date for that
identifier. -/
theorem C9_grouped_top1_latest_price :
    CBMetadataSql.read_latest_convert_price
      [[("ticker", .str "1"), ("exchange", .str "X"),
        ("announcement_date", .int 20240101), ("conversion_price", .int 10)],
       [("ticker", .str "1"), ("exchange", .str "X"),
        ("announcement_date", .int 20240201), ("conversion_price", .int 11)]]
      ["conversion_price"] (some (.one "1")) none "announcement_date"
      = [[("ticker", .str "1"), ("exchange", .str "X"),
          ("conversion_price", .int 11)]] := by
  rfl

/-- C10 (counterexample): ticker is given, yet a caller-supplied empty
filter mapping is unchanged after the call — line 128 rebinds a falsy
mapping to a fresh dict, so no entry reaches the caller's object — refuting
the claim that the caller's mapping differs whenever those arguments are
given. -/
theorem C10_empty_dict_unchanged :
    rmCallerDictAfter [] (some (.one "AAPL")) none = ([] : Dict) := by
  rfl


/-- C10 (amended): when the caller-supplied mapping is non-empty, the
writes of lines 130, 134 and 206 reach the caller's dictionary in place:
the ticker entry whenever ticker is given (it precedes the paired-length
assert); the exchange entry whenever exchange is given and the assert does
not fire — in particular always, when exchange is given without ticker;
on the assert path the caller's dict is exactly the original with only the
new ticker entry, the exchange entry never written; and, for
`read_metadata_for_insttype`, the inst_type entry unconditionally.  The
caller's object therefore differs after the call whenever a written entry
was not already present with that value. -/
theorem C10_nonempty_dict_mutated (d : Dict) (t e : SeqArg) (it : String)
    (hne : ¬d = []) :
    ((rmCallerDictAfter d (some t) (some e)).lookup "ticker"
        = some t.toFilterVal)
    ∧ (pairedLenAssertFires (some t) e = false →
        (rmCallerDictAfter d (some t) (some e)).lookup "exchange"
          = some e.toFilterVal)
    ∧ ((rmCallerDictAfter d none (some e)).lookup "exchange"
        = some e.toFilterVal)
    ∧ (pairedLenAssertFires (some t) e = true →
        rmCallerDictAfter d (some t) (some e)
          = dictSet d "ticker" t.toFilterVal)
    ∧ (¬d.lookup "ticker" = some t.toFilterVal →
        ¬rmCallerDictAfter d (some t) (some e) = d)
    ∧ (¬d.lookup "exchange" = some e.toFilterVal →
        ¬rmCallerDictAfter d none (some e) = d)
    ∧ ((rmitCallerDictAfter d it none none).lookup "inst_type"
        = some (FilterVal.single (.str it)))
    ∧ (¬d.lookup "inst_type" = some (FilterVal.single (.str it)) →
        ¬rmitCallerDictAfter d it none none = d) := by
  have hde : d.isEmpty = false := by
    cases d with
    | nil => exact absurd rfl hne
    | cons p ps => rfl
  have hB : rmCallerDictAfter d none (some e)
      = dictSet d "exchange" e.toFilterVal := by
    unfold rmCallerDictAfter
    rw [if_neg (by simp [hde])]
    cases e with
    | one s => rfl
    | many l => rfl
  have hBl : (rmCallerDictAfter d none (some e)).lookup "exchange"
      = some e.toFilterVal := by
    rw [hB]
    exact dictSet_lookup_self d "exchange" e.toFilterVal
  have hrmit : rmitCallerDictAfter d it none none
      = dictSet d "inst_type" (.single (.str it)) := by
    unfold rmitCallerDictAfter
    rw [if_neg (by simp [hde])]
    rfl
  have hrmitl : (rmitCallerDictAfter d it none none).lookup "inst_type"
      = some (FilterVal.single (.str it)) := by
    rw [hrmit]
    exact dictSet_lookup_self d "inst_type" (.single (.str it))
  have hcases :
      (pairedLenAssertFires (some t) e = true
        ∧ rmCallerDictAfter d (some t) (some e)
            = dictSet d "ticker" t.toFilterVal)
      ∨ (pairedLenAssertFires (some t) e = false
        ∧ rmCallerDictAfter d (some t) (some e)
            = dictSet (dictSet d "ticker" t.toFilterVal) "exchange"
                e.toFilterVal) := by
    cases e with
    | one s =>
      right
      refine ⟨rfl, ?_⟩
      unfold rmCallerDictAfter
      rw [if_neg (by simp [hde])]
      rfl
    | many l =>
      by_cases hlen : l.length = t.pyLen
      · right
        constructor
        · show (!(l.length == t.pyLen)) = false
          rw [beq_iff_eq.mpr hlen]
          rfl
        · unfold rmCallerDictAfter
          rw [if_neg (by simp [hde])]
          simp [rmFilterSteps, hlen]
      · left
        constructor
        · show (!(l.length == t.pyLen)) = true
          rw [beq_eq_false_iff_ne.mpr hlen]
          rfl
        · unfold rmCallerDictAfter
          rw [if_neg (by simp [hde])]
          simp [rmFilterSteps, hlen]
  have htl : (rmCallerDictAfter d (some t) (some e)).lookup "ticker"
      = some t.toFilterVal := by
    rcases hcases with ⟨_, hA⟩ | ⟨_, hA⟩
    · rw [hA]
      exact dictSet_lookup_self d "ticker" t.toFilterVal
    · rw [hA, dictSet_lookup_other (dictSet d "ticker" t.toFilterVal)
        "ticker" "exchange" e.toFilterVal (by decide)]
      exact dictSet_lookup_self d "ticker" t.toFilterVal
  refine ⟨htl, ?_, hBl, ?_, ?_, ?_, hrmitl, ?_⟩
  · intro hfz
    rcases hcases with ⟨hf, _⟩ | ⟨_, hA⟩
    · rw [hf] at hfz
      simp at hfz
    · rw [hA]
      exact dictSet_lookup_self _ "exchange" e.toFilterVal
  · intro hft
    rcases hcases with ⟨_, hA⟩ | ⟨hf, _⟩
    · exact hA
    · rw [hf] at hft
      simp at hft
  · intro ht he
    exact ht (he ▸ htl)
  · intro hx he
    exact hx (he ▸ hBl)
  · intro hi he
    exact hi (he ▸ hrmitl)

/-- Witness for C10 (amended): a caller dict holding one unrelated entry,
ticker "AB" with exchange ["NASDAQ", "NYSE"] (Python lengths 2 and 2, so
the assert does not fire and both entries are written), and inst_type
"STK". -/
theorem C10_nonempty_dict_mutated_witness :
    ((rmCallerDictAfter [("foo", .single (.int 1))] (some (.one "AB"))
          (some (.many ["NASDAQ", "NYSE"]))).lookup "ticker"
        = some ((SeqArg.one "AB").toFilterVal))
    ∧ (pairedLenAssertFires (some (.one "AB")) (.many ["NASDAQ", "NYSE"])
          = false →
        (rmCallerDictAfter [("foo", .single (.int 1))] (some (.one "AB"))
            (some (.many ["NASDAQ", "NYSE"]))).lookup "exchange"
          = some ((SeqArg.many ["NASDAQ", "NYSE"]).toFilterVal))
    ∧ ((rmCallerDictAfter [("foo", .single (.int 1))] none
          (some (.many ["NASDAQ", "NYSE"]))).lookup "exchange"
        = some ((SeqArg.many ["NASDAQ", "NYSE"]).toFilterVal))
    ∧ (pairedLenAssertFires (some (.one "AB")) (.many ["NASDAQ", "NYSE"])
          = true →
        rmCallerDictAfter [("foo", .single (.int 1))] (some (.one "AB"))
            (some (.many ["NASDAQ", "NYSE"]))
          = dictSet [("foo", .single (.int 1))] "ticker"
              ((SeqArg.one "AB").toFilterVal))
    ∧ (¬([("foo", .single (.int 1))] : Dict).lookup "ticker"
          = some ((SeqArg.one "AB").toFilterVal) →
        ¬rmCallerDictAfter [("foo", .single (.int 1))] (some (.one "AB"))
            (some (.many ["NASDAQ", "NYSE"]))
          = [("foo", .single (.int 1))])
    ∧ (¬([("foo", .single (.int 1))] : Dict).lookup "exchange"
          = some ((SeqArg.many ["NASDAQ", "NYSE"]).toFilterVal) →
        ¬rmCallerDictAfter [("foo", .single (.int 1))] none
            (some (.many ["NASDAQ", "NYSE"]))
          = [("foo", .single (.int 1))])
    ∧ ((rmitCallerDictAfter [("foo", .single (.int 1))] "STK" none
          none).lookup "inst_type" = some (FilterVal.single (.str "STK")))
    ∧ (¬([("foo", .single (.int 1))] : Dict).lookup "inst_type"
          = some (FilterVal.single (.str "STK")) →
        ¬rmitCallerDictAfter [("foo", .single (.int 1))] "STK" none none
          = [("foo", .single (.int 1))]) :=
  C10_nonempty_dict_mutated [("foo", .single (.int 1))] (.one "AB")
    (.many ["NASDAQ", "NYSE"]) "STK" (by decide)
